import Mathlib

/-!
# Verification of the Isla-Reader request-authentication and OAuth-handoff core

This file gives a shallow embedding, in Lean 4, of the replay-prevention and
request-signing core of the Isla-Reader backend:

* `server/app/security.py` — `NonceStore` and `verify_signed_request`;
* `server/app/routers/notion_oauth.py` — `EphemeralSessionCache`,
  `StateReplayGuard`, `_validate_state_or_raise`, the OAuth callback handler
  `notion_oauth_callback` and the finalize handler `finalize_notion_oauth`.

Modelling conventions:

* Python `dict`s (which preserve insertion order) are modelled as
  insertion-ordered association lists `List (String × β)`; assigning to an
  existing key keeps its position, assigning a fresh key appends.
* Python `sorted` is a stable sort; since the output of a stable sort is
  uniquely determined by the key function and the input order, it is modelled
  by `List.insertionSort` (stable) over the same key.
* Unix timestamps are Python `int`s and are modelled as `Int`.  Readings of
  the wall/monotonic clocks (`datetime.now(...)`, `time.monotonic()`) are
  also modelled as `Int`: the code's clock values are totally ordered reals,
  every comparison the code performs is between a clock reading and a sum or
  difference of a clock reading and an integer TTL, and every property
  stated here is order-theoretic, so integer instants capture them; no claim
  exercises sub-second granularity.  Every distinct clock read in the Python
  source is a distinct explicit parameter.
* Python `str.strip()` is modelled by `pyStrip`, which removes exactly the
  code points Python's `str.isspace()` accepts (`pyIsSpace`).
* `hashlib`/`hmac`: SHA-256 and HMAC-SHA256 are implemented in full below on
  byte lists (`List Nat`, each entry < 256), together with UTF-8 encoding of
  strings, so that `expected_signature` is the genuine lowercase-hex
  HMAC-SHA256 digest.  `hmac.compare_digest` on `str` arguments raises
  `TypeError` unless both are pure ASCII; this precondition is modelled.
* `datetime.fromtimestamp(ts, tz=timezone.utc)` only supports years 1–9999,
  i.e. `ts ∈ [-62135596800, 253402300799]`; outside this range it raises
  (an unhandled `ValueError`/`OverflowError`), which is modelled by a
  distinct error constructor.
-/

/-! ## Ordered-dictionary primitives (Python `dict` semantics) -/

/-- Lookup in an insertion-ordered association list (`d.get(k)` /
`d[k]` on a Python dict, whose keys are unique). -/
def dictGet {β : Type} : List (String × β) → String → Option β
  | [], _ => none
  | p :: t, k => if p.1 = k then some p.2 else dictGet t k

/-- Membership test (`k in d`). -/
def dictMem {β : Type} (d : List (String × β)) (k : String) : Bool :=
  d.any (fun p => p.1 == k)

/-- Assignment `d[k] = v`: overwrite in place when the key exists (keeping its
position, as Python dicts do), otherwise append. -/
def dictSet {β : Type} : List (String × β) → String → β → List (String × β)
  | [], k, v => [(k, v)]
  | p :: t, k, v => if p.1 = k then (k, v) :: t else p :: dictSet t k v

/-- Removal `d.pop(k, None)` (only the removal part). -/
def dictRemove {β : Type} : List (String × β) → String → List (String × β)
  | [], _ => []
  | p :: t, k => if p.1 = k then t else p :: dictRemove t k

/-! ## Bytes, UTF-8 and hex -/

/-- UTF-8 encoding of a single Unicode code point, as bytes. -/
def utf8EncodeCodepoint (c : Nat) : List Nat :=
  if c < 0x80 then [c]
  else if c < 0x800 then
    [0xC0 ||| (c >>> 6), 0x80 ||| (c &&& 0x3F)]
  else if c < 0x10000 then
    [0xE0 ||| (c >>> 12), 0x80 ||| ((c >>> 6) &&& 0x3F), 0x80 ||| (c &&& 0x3F)]
  else
    [0xF0 ||| (c >>> 18), 0x80 ||| ((c >>> 12) &&& 0x3F),
     0x80 ||| ((c >>> 6) &&& 0x3F), 0x80 ||| (c &&& 0x3F)]

/-- `s.encode("utf-8")` as a list of byte values. -/
def strBytes (s : String) : List Nat :=
  s.data.flatMap (fun c => utf8EncodeCodepoint c.toNat)

/-- Lowercase hexadecimal digit for a value `< 16`. -/
def hexDigit (n : Nat) : Char :=
  if n < 10 then Char.ofNat (48 + n) else Char.ofNat (87 + n)

/-- Two lowercase hex characters for one byte. -/
def byteToHex (b : Nat) : List Char :=
  [hexDigit (b / 16), hexDigit (b % 16)]

/-- Lowercase-hex rendering of a byte string (Python `.hexdigest()`). -/
def bytesToHexStr (bs : List Nat) : String :=
  String.mk (bs.flatMap byteToHex)

/-- ASCII test for one character (`str.isascii` is per-code-point). -/
def charIsAscii (c : Char) : Bool := c.toNat < 128

/-- `s.isascii()`: the precondition `hmac.compare_digest` places on `str`
arguments. -/
def strIsAscii (s : String) : Bool := s.data.all charIsAscii

/-- Python `str.isspace()` for a single character: the code points
`str.strip()` removes — U+0009–U+000D, U+001C–U+001F, space, U+0085 (NEL),
U+00A0 (NBSP), U+1680 (Ogham space), U+2000–U+200A, U+2028, U+2029,
U+202F, U+205F and U+3000 (bidirectional classes WS/B/S plus category Zs). -/
def pyIsSpace (c : Char) : Bool :=
  let n := c.toNat
  (9 ≤ n && n ≤ 13) || (28 ≤ n && n ≤ 31) || n == 32 || n == 133 ||
    n == 160 || n == 5760 || (8192 ≤ n && n ≤ 8202) || n == 8232 ||
    n == 8233 || n == 8239 || n == 8287 || n == 12288

/-- Python `str.strip()`: drop leading and trailing Unicode whitespace. -/
def pyStrip (s : String) : String :=
  String.mk
    (((s.data.dropWhile pyIsSpace).reverse.dropWhile pyIsSpace).reverse)

/-! ## SHA-256 (FIPS 180-4) on byte lists -/

/-- Word arithmetic modulo `2^32`. -/
def add32 (a b : Nat) : Nat := (a + b) % 4294967296

/-- Right rotation of a 32-bit word. -/
def rotr32 (n x : Nat) : Nat :=
  ((x >>> n) ||| (x <<< (32 - n))) % 4294967296

/-- Bitwise complement on 32 bits. -/
def not32 (x : Nat) : Nat := x ^^^ 4294967295

/-- SHA-256 `Ch` function. -/
def shaCh (e f g : Nat) : Nat := (e &&& f) ^^^ (not32 e &&& g)

/-- SHA-256 `Maj` function. -/
def shaMaj (a b c : Nat) : Nat := (a &&& b) ^^^ (a &&& c) ^^^ (b &&& c)

/-- SHA-256 upper-case sigma 0. -/
def sumS0 (x : Nat) : Nat := rotr32 2 x ^^^ rotr32 13 x ^^^ rotr32 22 x

/-- SHA-256 upper-case sigma 1. -/
def sumS1 (x : Nat) : Nat := rotr32 6 x ^^^ rotr32 11 x ^^^ rotr32 25 x

/-- SHA-256 lower-case sigma 0. -/
def lowS0 (x : Nat) : Nat := rotr32 7 x ^^^ rotr32 18 x ^^^ (x >>> 3)

/-- SHA-256 lower-case sigma 1. -/
def lowS1 (x : Nat) : Nat := rotr32 17 x ^^^ rotr32 19 x ^^^ (x >>> 10)

/-- The 64 SHA-256 round constants (FIPS 180-4 §4.2.2), in decimal. -/
def shaK : List Nat :=
  [1116352408, 1899447441, 3049323471, 3921009573,
   961987163, 1508970993, 2453635748, 2870763221,
   3624381080, 310598401, 607225278, 1426881987,
   1925078388, 2162078206, 2614888103, 3248222580,
   3835390401, 4022224774, 264347078, 604807628,
   770255983, 1249150122, 1555081692, 1996064986,
   2554220882, 2821834349, 2952996808, 3210313671,
   3336571891, 3584528711, 113926993, 338241895,
   666307205, 773529912, 1294757372, 1396182291,
   1695183700, 1986661051, 2177026350, 2456956037,
   2730485921, 2820302411, 3259730800, 3345764771,
   3516065817, 3600352804, 4094571909, 275423344,
   430227734, 506948616, 659060556, 883997877,
   958139571, 1322822218, 1537002063, 1747873779,
   1955562222, 2024104815, 2227730452, 2361852424,
   2428436474, 2756734187, 3204031479, 3329325298]

/-- The SHA-256 initial hash value (FIPS 180-4 §5.3.3), in decimal. -/
def shaH0 : List Nat :=
  [1779033703, 3144134277, 1013904242, 2773480762,
   1359893119, 2600822924, 528734635, 1541459225]

/-- Extend the message schedule: `acc` holds the words produced so far in
reverse order (`W[t-1]` first); each step prepends one new word. -/
def extendW : Nat → List Nat → List Nat
  | 0, acc => acc
  | n + 1, acc =>
      let v := add32 (add32 (lowS1 (acc.getD 1 0)) (acc.getD 6 0))
                     (add32 (lowS0 (acc.getD 14 0)) (acc.getD 15 0))
      extendW n (v :: acc)

/-- The 64-word message schedule of one 16-word block. -/
def scheduleW (block : List Nat) : List Nat :=
  (extendW 48 block.reverse).reverse

/-- One SHA-256 round on the working variables `[a,b,c,d,e,f,g,h]`. -/
def shaRound (s : List Nat) (kw : Nat × Nat) : List Nat :=
  match s with
  | [a, b, c, d, e, f, g, h] =>
      let t1 := add32 h (add32 (sumS1 e) (add32 (shaCh e f g) (add32 kw.1 kw.2)))
      let t2 := add32 (sumS0 a) (shaMaj a b c)
      [add32 t1 t2, a, b, c, add32 d t1, e, f, g]
  | other => other

/-- Compress one 16-word block into the running hash. -/
def shaCompress (hs : List Nat) (block : List Nat) : List Nat :=
  let final := (shaK.zip (scheduleW block)).foldl shaRound hs
  (hs.zip final).map (fun p => add32 p.1 p.2)

/-- Big-endian bytes (most significant first) of an 8-byte length field. -/
def lenBytes64 (bits : Nat) : List Nat :=
  [(bits >>> 56) &&& 255, (bits >>> 48) &&& 255, (bits >>> 40) &&& 255,
   (bits >>> 32) &&& 255, (bits >>> 24) &&& 255, (bits >>> 16) &&& 255,
   (bits >>> 8) &&& 255, bits &&& 255]

/-- SHA-256 padding of a byte message. -/
def shaPad (msg : List Nat) : List Nat :=
  let l := msg.length
  let k := (64 + 56 - ((l + 1) % 64)) % 64
  msg ++ [0x80] ++ List.replicate k 0 ++ lenBytes64 (8 * l)

/-- Group four bytes (big-endian) into one 32-bit word, over a whole list. -/
def bytesToWords : List Nat → List Nat
  | b0 :: b1 :: b2 :: b3 :: rest =>
      (((b0 * 256 + b1) * 256 + b2) * 256 + b3) :: bytesToWords rest
  | _ => []

/-- Fuel-driven chunking into 64-byte blocks (the fuel is the list length,
which strictly exceeds the number of blocks). -/
def chunk64Fuel : Nat → List Nat → List (List Nat)
  | 0, _ => []
  | _, [] => []
  | fuel + 1, l => l.take 64 :: chunk64Fuel fuel (l.drop 64)

/-- Split a (padded) byte message into 64-byte blocks. -/
def chunk64 (l : List Nat) : List (List Nat) := chunk64Fuel l.length l

/-- Big-endian bytes of one 32-bit word. -/
def wordBytes (w : Nat) : List Nat :=
  [(w >>> 24) &&& 255, (w >>> 16) &&& 255, (w >>> 8) &&& 255, w &&& 255]

/-- SHA-256 digest of a byte message, as 32 bytes. -/
def sha256 (msg : List Nat) : List Nat :=
  let blocks := (chunk64 (shaPad msg)).map bytesToWords
  (blocks.foldl shaCompress shaH0).flatMap wordBytes

/-- `hashlib.sha256(s.encode()).hexdigest()`. -/
def sha256Hex (s : String) : String := bytesToHexStr (sha256 (strBytes s))

/-! ## HMAC-SHA256 (RFC 2104) -/

/-- HMAC-SHA256 over byte lists (block size 64). -/
def hmacSha256 (key msg : List Nat) : List Nat :=
  let k0 := if 64 < key.length then sha256 key else key
  let kpad := k0 ++ List.replicate (64 - k0.length) 0
  let ipadded := kpad.map (fun b => b ^^^ 0x36)
  let opadded := kpad.map (fun b => b ^^^ 0x5c)
  sha256 (opadded ++ sha256 (ipadded ++ msg))

/-- `hmac.new(key.encode(), msg.encode(), hashlib.sha256).hexdigest()`. -/
def hmacSha256Hex (key msg : String) : String :=
  bytesToHexStr (hmacSha256 (strBytes key) (strBytes msg))

set_option maxRecDepth 1000000

/-- FIPS 180-4 test vector: the implementation above really is SHA-256. -/
theorem sha256Hex_fips_vector :
    sha256Hex "abc" =
      "ba7816bf8f01cfea414140de5dae2223b00361a396177a9cb410ff61f20015ad" := by
  decide

/-- RFC 4231 test case 2: the implementation above really is HMAC-SHA256. -/
theorem hmacSha256Hex_rfc4231_vector :
    hmacSha256Hex "Jefe" "what do ya want for nothing?" =
      "5bdcc146bf60754e6a042426089575c75a003f089d2739839dec58b964ec3843" := by
  decide

/-! ## `server/app/security.py` — errors and settings -/

/-- Outcomes with which `verify_signed_request` / `validate_and_store` can
fail.  The first four are the `HTTPException(401, ...)` raises in
`security.py`; the last two are the unhandled stdlib exceptions that escape
the handler (FastAPI turns them into a 500 response). -/
inductive VerifyError where
  /-- `HTTPException(401, "Invalid client credentials")` -/
  | invalidClient
  /-- `HTTPException(401, "Request timestamp expired")` -/
  | expired
  /-- `HTTPException(401, "Invalid signature")` -/
  | badSignature
  /-- `HTTPException(401, "Nonce already used")` -/
  | replayed
  /-- `datetime.fromtimestamp` raises for timestamps outside years 1–9999 -/
  | timestampOutOfRange
  /-- `hmac.compare_digest` raises `TypeError` on non-ASCII `str` input -/
  | nonAsciiSignature
  deriving DecidableEq, Repr

/-- HTTP status code the client observes for each error. -/
def VerifyError.statusCode : VerifyError → Nat
  | .invalidClient => 401
  | .expired => 401
  | .badSignature => 401
  | .replayed => 401
  | .timestampOutOfRange => 500
  | .nonAsciiSignature => 500

/-- The `detail` string of the `HTTPException` raises in `security.py`. -/
def VerifyError.detail : VerifyError → String
  | .invalidClient => "Invalid client credentials"
  | .expired => "Request timestamp expired"
  | .badSignature => "Invalid signature"
  | .replayed => "Nonce already used"
  | .timestampOutOfRange => "Internal Server Error"
  | .nonAsciiSignature => "Internal Server Error"

/-- The fields of `config.Settings` that `security.py` reads. -/
structure Settings where
  client_id : String
  client_secret : String
  request_ttl_seconds : Int
  deriving DecidableEq, Repr

/-! ## `server/app/security.py` — `NonceStore` -/

/-- `NonceStore`: `_seen` is the insertion-ordered dict `nonce → timestamp`,
`_max_entries` the constructor argument (default `10_000`). -/
structure NonceStore where
  seen : List (String × Int)
  max_entries : Nat
  deriving DecidableEq, Repr

/-- Timestamp order on dict items, used for the eviction sort. -/
def tsLE (p q : String × Int) : Prop := p.2 ≤ q.2

instance : DecidableRel tsLE := fun p q => inferInstanceAs (Decidable (p.2 ≤ q.2))

instance : IsTotal (String × Int) tsLE := ⟨fun p q => Int.le_total p.2 q.2⟩

instance : IsTrans (String × Int) tsLE := ⟨fun _ _ _ h h' => le_trans h h'⟩

/-- `NonceStore._evict(cutoff)`: drop every entry with `ts < cutoff`; then, if
still over `_max_entries`, drop the `overflow` oldest-timestamp entries
(Python's stable `sorted(items, key=ts)[:overflow]`, modelled by the stable
`insertionSort`). -/
def nonceEvict (seen : List (String × Int)) (max_entries : Nat) (cutoff : Int) :
    List (String × Int) :=
  let kept := seen.filter (fun p => decide (cutoff ≤ p.2))
  if kept.length ≤ max_entries then kept
  else
    let overflow := kept.length - max_entries
    let victims := ((kept.insertionSort tsLE).take overflow).map Prod.fst
    kept.filter (fun p => !(victims.contains p.1))

/-- `NonceStore.validate_and_store(nonce, timestamp, ttl_seconds)`.
`now_ts` models `int(datetime.now(timezone.utc).timestamp())`.  The returned
store reflects the in-place mutation also on the error path (the eviction has
already happened when the `HTTPException` is raised). -/
def NonceStore.validate_and_store (s : NonceStore) (nonce : String)
    (timestamp ttl_seconds now_ts : Int) : NonceStore × Option VerifyError :=
  let cutoff := now_ts - ttl_seconds
  let seen1 := nonceEvict s.seen s.max_entries cutoff
  match dictGet seen1 nonce with
  | some existing_ts =>
      if cutoff ≤ existing_ts then
        ({ s with seen := seen1 }, some .replayed)
      else
        ({ s with seen := dictSet seen1 nonce timestamp }, none)
  | none => ({ s with seen := dictSet seen1 nonce timestamp }, none)

/-! ## `server/app/security.py` — `verify_signed_request` -/

/-- Smallest timestamp `datetime.fromtimestamp(·, tz=utc)` accepts
(0001-01-01T00:00:00Z). -/
def minFromTs : Int := -62135596800

/-- Largest timestamp `datetime.fromtimestamp(·, tz=utc)` accepts
(9999-12-31T23:59:59Z). -/
def maxFromTs : Int := 253402300799

/-- `verify_signed_request(client_id, nonce, timestamp, signature, settings,
nonce_store)`.  `now` models the fractional-seconds reading
`datetime.now(timezone.utc)` taken for the freshness check; `now_ts` models
the separate integer clock reading taken inside `validate_and_store`.  The
store is returned unchanged on every failure that precedes the nonce check. -/
def verify_signed_request (client_id nonce : String) (timestamp : Int)
    (signature : String) (settings : Settings) (store : NonceStore)
    (now : Int) (now_ts : Int) : NonceStore × Option VerifyError :=
  if client_id ≠ settings.client_id then (store, some .invalidClient)
  else if timestamp < minFromTs ∨ maxFromTs < timestamp then
    (store, some .timestampOutOfRange)
  else
    let delta := |now - (timestamp : Int)|
    if (settings.request_ttl_seconds : Int) < delta then (store, some .expired)
    else
      let payload := client_id ++ "." ++ nonce ++ "." ++ toString timestamp
      let expected_signature := hmacSha256Hex settings.client_secret payload
      if ¬ (strIsAscii expected_signature ∧ strIsAscii signature) then
        (store, some .nonAsciiSignature)
      else if expected_signature ≠ signature then (store, some .badSignature)
      else store.validate_and_store nonce timestamp settings.request_ttl_seconds now_ts

/-! ## `server/app/routers/notion_oauth.py` — `EphemeralSessionCache`

The payload is a Python `Dict[str, Any]`; its type is kept abstract (`α`)
except where the callback needs to read `access_token`, in which case
`α := List (String × String)`.  The monotonic clock is modelled as `Int`. -/

/-- `EphemeralSessionCache`: `_store` maps `session_id → (expires_at,
payload)`, `_max_entries` is the constructor argument (default `10_000`). -/
structure SessionCache (α : Type) where
  store : List (String × (Int × α))
  max_entries : Nat

/-- Expiry order on cache items, used for the eviction sort. -/
def expLE {α : Type} (p q : String × (Int × α)) : Prop := p.2.1 ≤ q.2.1

instance {α : Type} : DecidableRel (expLE (α := α)) :=
  fun p q => inferInstanceAs (Decidable (p.2.1 ≤ q.2.1))

instance {α : Type} : IsTotal (String × (Int × α)) expLE :=
  ⟨fun p q => le_total p.2.1 q.2.1⟩

instance {α : Type} : IsTrans (String × (Int × α)) expLE :=
  ⟨fun _ _ _ h h' => le_trans h h'⟩

/-- `EphemeralSessionCache._evict_expired(now)`: drop every entry with
`expires_at ≤ now`; then, if still over `_max_entries`, drop the `overflow`
oldest-expiring entries (stable sort by `expires_at`). -/
def cacheEvict {α : Type} (store : List (String × (Int × α))) (max_entries : Nat)
    (now : Int) : List (String × (Int × α)) :=
  let kept := store.filter (fun p => decide (now < p.2.1))
  if kept.length ≤ max_entries then kept
  else
    let overflow := kept.length - max_entries
    let victims := ((kept.insertionSort expLE).take overflow).map Prod.fst
    kept.filter (fun p => !(victims.contains p.1))

/-- `EphemeralSessionCache.set(session_id, payload, ttl_seconds)`.  `now_exp`
models the `monotonic()` read used for `expires_at`; `now_evict` the separate
read passed to `_evict_expired`. -/
def SessionCache.set {α : Type} (c : SessionCache α) (session_id : String)
    (payload : α) (ttl_seconds : Int) (now_exp now_evict : Int) : SessionCache α :=
  let expires_at := now_exp + (ttl_seconds : Int)
  let st := cacheEvict c.store c.max_entries now_evict
  { c with store := dictSet st session_id (expires_at, payload) }

/-- `EphemeralSessionCache.pop(session_id)`: sweep, then remove and return the
entry; a removed-but-expired record still yields `None` (dead code when the
same `now` is used for sweep and check, kept for fidelity). -/
def SessionCache.pop {α : Type} (c : SessionCache α) (session_id : String)
    (now : Int) : SessionCache α × Option α :=
  let st := cacheEvict c.store c.max_entries now
  match dictGet st session_id with
  | none => ({ c with store := st }, none)
  | some record =>
      let st2 := dictRemove st session_id
      if record.1 ≤ now then ({ c with store := st2 }, none)
      else ({ c with store := st2 }, some record.2)

/-! ## `server/app/routers/notion_oauth.py` — `StateReplayGuard` -/

/-- `StateReplayGuard`: `_seen` maps `state → monotonic instant first seen`,
`_ttl_seconds` is the constructor argument (default `600`). -/
structure StateReplayGuard where
  ttl_seconds : Int
  seen : List (String × Int)

/-- `StateReplayGuard.validate_and_mark(state)`: sweep entries with
`seen_at < now - ttl`, reject if still present (`ValueError("state_replayed")`),
else record `state → now`.  The returned guard reflects the sweep also on the
rejection path. -/
def StateReplayGuard.validate_and_mark (g : StateReplayGuard) (state : String)
    (now : Int) : StateReplayGuard × Option String :=
  let cutoff := now - (g.ttl_seconds : Int)
  let seen1 := g.seen.filter (fun p => decide (cutoff ≤ p.2))
  if dictMem seen1 state then ({ g with seen := seen1 }, some "state_replayed")
  else ({ g with seen := dictSet seen1 state now }, none)

/-- The character class of `STATE_PATTERN = ^[A-Za-z0-9._~\x2d]{8,512}$`. -/
def stateChar (c : Char) : Bool :=
  c.isAlpha || c.isDigit || c == '.' || c == '_' || c == '~' || c == '-'

/-- `STATE_PATTERN.fullmatch(s)` (length counted in code points, as Python
does on `str`). -/
def matchesStatePattern (s : String) : Bool :=
  decide (8 ≤ s.length) && decide (s.length ≤ 512) && s.data.all stateChar

/-- `_validate_state_or_raise(state)`: strip, check the grammar
(`ValueError("invalid_state")` on failure), then consult the replay guard.
On success returns the normalized state. -/
def validate_state_or_raise (g : StateReplayGuard) (state : Option String)
    (now : Int) : StateReplayGuard × Except String String :=
  let normalized := pyStrip (state.getD "")
  if normalized = "" ∨ ¬ matchesStatePattern normalized then
    (g, .error "invalid_state")
  else
    match g.validate_and_mark normalized now with
    | (g1, some e) => (g1, .error e)
    | (g1, none) => (g1, .ok normalized)

/-! ## `server/app/routers/notion_oauth.py` — finalize handler -/

/-- The externally observable outcome of `finalize_notion_oauth`: either a
JSON error body with HTTP 400, or HTTP 200 with the token payload. -/
inductive FinalizeResponse (α : Type) where
  /-- `JSONResponse(400, {"error": e, "message": m})` -/
  | badRequest (error message : String)
  /-- `JSONResponse(200, token_payload)` -/
  | ok (payload : α)
  deriving DecidableEq

/-- `finalize_notion_oauth(payload)` for `payload.session_id = session_id`
(pydantic guarantees `1 ≤ len(session_id) ≤ 128` before the handler runs). -/
def finalize_notion_oauth {α : Type} (cache : SessionCache α)
    (session_id : String) (now : Int) : FinalizeResponse α × SessionCache α :=
  let sid := pyStrip session_id
  if sid = "" then
    (.badRequest "invalid_session" "session_id is required", cache)
  else
    match cache.pop sid now with
    | (c1, none) =>
        (.badRequest "session_expired" "Session not found or expired", c1)
    | (c1, some token_payload) => (.ok token_payload, c1)

/-! ## `server/app/routers/notion_oauth.py` — OAuth callback handler

The handler's interaction with the outside world is made explicit:

* the outcome of `_exchange_code_with_notion` (an `httpx` network call with a
  10-second timeout) is an `ExchangeResult` input;
* the fresh `str(uuid4())` is a `new_session_id` input;
* `settings.notion_client_id` / `settings.notion_client_secret` are inputs
  (empty string models a missing/falsy value);
* the redirect targets built by `_build_app_redirect` / `_redirect_error` are
  summarized by their message, which is all the claims inspect.

The response body is modelled as a string-valued JSON object
(`List (String × String)`); the handler only ever reads `access_token` from
it, which Notion delivers as a string. -/

/-- Result of the upstream token request: either `httpx.RequestError`
(network failure or timeout), or a response with a status code and a body.
`parseOk = false` models a body on which `.json()` raises (handled by
falling back to `{}`). -/
inductive ExchangeResult where
  | requestError (msg : String)
  | response (statusCode : Nat) (parseOk : Bool) (body : List (String × String))

/-- What the callback hands back to the browser. -/
inductive CallbackResult where
  /-- `_redirect_error(message, ...)`: 302 to `lanread://notion/error` -/
  | redirectError (message : String)
  /-- 302 to `lanread://notion/finish?session=...&state=...` -/
  | redirectFinish (session_id state : String)
  deriving DecidableEq

/-- The mutable state the callback and finalize handlers share. -/
structure OAuthServerState where
  guard : StateReplayGuard
  cache : SessionCache (List (String × String))

/-- `notion_oauth_callback(request, code, state, settings)`.  `now_state` is
the `monotonic()` read inside `validate_and_mark`; `now_exp`/`now_evict` are
the two reads inside `EphemeralSessionCache.set` (used only on success). -/
def notion_oauth_callback (st : OAuthServerState) (code state : Option String)
    (notion_client_id notion_client_secret : String)
    (exchange : ExchangeResult) (new_session_id : String)
    (now_state now_exp now_evict : Int) : CallbackResult × OAuthServerState :=
  match validate_state_or_raise st.guard state now_state with
  | (g1, .error _) => (.redirectError "Invalid OAuth state", { st with guard := g1 })
  | (g1, .ok verified_state) =>
    let st1 : OAuthServerState := { st with guard := g1 }
    if code.getD "" = "" then
      (.redirectError "Missing authorization code", st1)
    else if notion_client_id = "" ∨ notion_client_secret = "" then
      (.redirectError "Server OAuth configuration is incomplete", st1)
    else
      match exchange with
      | .requestError _ => (.redirectError "Failed to reach Notion API", st1)
      | .response statusCode parseOk body =>
        let response_body := if parseOk then body else []
        if 400 ≤ statusCode then
          (.redirectError "Notion OAuth failed", st1)
        else
          match dictGet response_body "access_token" with
          | some tok =>
              if pyStrip tok = "" then
                (.redirectError "Notion response missing access_token", st1)
              else
                let cache1 := st1.cache.set new_session_id response_body 60
                  now_exp now_evict
                (.redirectFinish new_session_id verified_state,
                 { st1 with cache := cache1 })
          | none => (.redirectError "Notion response missing access_token", st1)

/-- `SESSION_TTL_SECONDS` in `notion_oauth.py`. -/
def SESSION_TTL_SECONDS : Int := 60

/-! ## Helper lemmas about the ordered-dictionary primitives -/

theorem dictGet_eq_none {β : Type} {d : List (String × β)} {k : String} :
    dictGet d k = none ↔ ∀ p ∈ d, p.1 ≠ k := by
  induction d with
  | nil => simp [dictGet]
  | cons hd tl ih =>
      by_cases h : hd.1 = k
      · simp [dictGet, h]
      · simp [dictGet, h, ih]

theorem dictGet_sublist_none {β : Type} {d d' : List (String × β)} {k : String}
    (hsub : List.Sublist d' d) (h : dictGet d k = none) : dictGet d' k = none := by
  rw [dictGet_eq_none] at h ⊢
  exact fun p hp => h p (hsub.mem hp)

theorem dictGet_mem {β : Type} {d : List (String × β)} {k : String} {v : β}
    (h : dictGet d k = some v) : (k, v) ∈ d := by
  induction d with
  | nil => simp [dictGet] at h
  | cons hd tl ih =>
      by_cases hh : hd.1 = k
      · rw [dictGet, if_pos hh] at h
        injection h with h
        have hhd : hd = (k, v) := by
          obtain ⟨a, b⟩ := hd; simp only at hh h; rw [hh, h]
        rw [← hhd]
        exact List.mem_cons_self hd tl
      · rw [dictGet, if_neg hh] at h
        exact List.mem_cons_of_mem _ (ih h)

theorem dictGet_filter_some {β : Type} {d : List (String × β)} {k : String}
    {v : β} {p : String × β → Bool} (h : dictGet d k = some v)
    (hp : p (k, v) = true) : dictGet (d.filter p) k = some v := by
  induction d with
  | nil => simp [dictGet] at h
  | cons hd tl ih =>
      by_cases hh : hd.1 = k
      · rw [dictGet, if_pos hh] at h
        injection h with h
        have hhd : hd = (k, v) := by
          obtain ⟨a, b⟩ := hd; simp only at hh h; rw [hh, h]
        rw [List.filter_cons, hhd, if_pos hp, dictGet, if_pos rfl]
      · rw [dictGet, if_neg hh] at h
        rw [List.filter_cons]
        by_cases hpc : p hd = true
        · rw [if_pos hpc, dictGet, if_neg hh]
          exact ih h
        · rw [if_neg hpc]
          exact ih h

theorem dictGet_filter_none {β : Type} {d : List (String × β)} {k : String}
    {v : β} {p : String × β → Bool} (hnd : (d.map Prod.fst).Nodup)
    (h : dictGet d k = some v) (hp : p (k, v) = false) :
    dictGet (d.filter p) k = none := by
  induction d with
  | nil => simp [dictGet] at h
  | cons hd tl ih =>
      rw [List.map_cons, List.nodup_cons] at hnd
      by_cases hh : hd.1 = k
      · rw [dictGet, if_pos hh] at h
        injection h with h
        have hhd : hd = (k, v) := by
          obtain ⟨a, b⟩ := hd; simp only at hh h; rw [hh, h]
        rw [List.filter_cons, hhd, if_neg (by simp [hp])]
        rw [dictGet_eq_none]
        intro q hq hqk
        have : q ∈ tl := (List.filter_sublist tl).mem hq
        have hk : k ∈ tl.map Prod.fst := hqk ▸ List.mem_map_of_mem Prod.fst this
        rw [hhd] at hnd
        exact hnd.1 hk
      · rw [dictGet, if_neg hh] at h
        rw [List.filter_cons]
        by_cases hpc : p hd = true
        · rw [if_pos hpc, dictGet, if_neg hh]
          exact ih hnd.2 h
        · rw [if_neg hpc]
          exact ih hnd.2 h

theorem dictMem_eq_isSome {β : Type} (d : List (String × β)) (k : String) :
    dictMem d k = (dictGet d k).isSome := by
  induction d with
  | nil => simp [dictMem, dictGet]
  | cons hd tl ih =>
      by_cases h : hd.1 = k
      · simp [dictMem, dictGet, h]
      · have hb : (hd.1 == k) = false := beq_eq_false_iff_ne.mpr h
        simpa [dictMem, dictGet, h, hb] using ih

theorem dictGet_dictSet_self {β : Type} (d : List (String × β)) (k : String)
    (v : β) : dictGet (dictSet d k v) k = some v := by
  induction d with
  | nil => simp [dictSet, dictGet]
  | cons hd tl ih =>
      by_cases h : hd.1 = k
      · rw [dictSet, if_pos h, dictGet, if_pos rfl]
      · rw [dictSet, if_neg h, dictGet, if_neg h]
        exact ih

theorem dictGet_dictSet_ne {β : Type} (d : List (String × β)) {k k' : String}
    (v : β) (hne : k' ≠ k) : dictGet (dictSet d k v) k' = dictGet d k' := by
  induction d with
  | nil => simp [dictSet, dictGet, Ne.symm hne]
  | cons hd tl ih =>
      by_cases h : hd.1 = k
      · rw [dictSet, if_pos h, dictGet, if_neg (fun hk => hne (Eq.symm hk)),
          dictGet, if_neg (by rw [h]; exact fun hk => hne (Eq.symm hk))]
      · rw [dictSet, if_neg h]
        by_cases h2 : hd.1 = k'
        · rw [dictGet, if_pos h2, dictGet, if_pos h2]
        · rw [dictGet, if_neg h2, dictGet, if_neg h2]
          exact ih

theorem mem_dictSet_of_ne {β : Type} {d : List (String × β)} {k : String}
    {v : β} {q : String × β} (hq : q ∈ dictSet d k v) (hne : q.1 ≠ k) :
    q ∈ d := by
  induction d with
  | nil =>
      rw [dictSet] at hq
      simp only [List.mem_singleton] at hq
      exact absurd (by rw [hq]) hne
  | cons hd tl ih =>
      by_cases h : hd.1 = k
      · rw [dictSet, if_pos h] at hq
        rw [List.mem_cons] at hq
        rcases hq with hq | hq
        · exact absurd (by rw [hq]) hne
        · exact List.mem_cons_of_mem _ hq
      · rw [dictSet, if_neg h] at hq
        rw [List.mem_cons] at hq
        rcases hq with hq | hq
        · rw [hq]; exact List.mem_cons_self hd tl
        · exact List.mem_cons_of_mem _ (ih hq)

theorem nodup_keys_dictSet {β : Type} {d : List (String × β)} (k : String)
    (v : β) (hnd : (d.map Prod.fst).Nodup) :
    ((dictSet d k v).map Prod.fst).Nodup := by
  induction d with
  | nil => simp [dictSet]
  | cons hd tl ih =>
      rw [List.map_cons, List.nodup_cons] at hnd
      by_cases h : hd.1 = k
      · rw [dictSet, if_pos h, List.map_cons, List.nodup_cons]
        exact ⟨by rw [← h]; exact hnd.1, hnd.2⟩
      · rw [dictSet, if_neg h, List.map_cons, List.nodup_cons]
        refine ⟨?_, ih hnd.2⟩
        intro hmem
        rcases List.mem_map.mp hmem with ⟨q, hq, hqk⟩
        by_cases hqk2 : q.1 = k
        · exact h (by rw [← hqk, hqk2])
        · exact hnd.1 (hqk ▸ List.mem_map_of_mem Prod.fst (mem_dictSet_of_ne hq hqk2))

theorem dictGet_dictRemove_self {β : Type} {d : List (String × β)} {k : String}
    (hnd : (d.map Prod.fst).Nodup) : dictGet (dictRemove d k) k = none := by
  induction d with
  | nil => simp [dictRemove, dictGet]
  | cons hd tl ih =>
      rw [List.map_cons, List.nodup_cons] at hnd
      by_cases h : hd.1 = k
      · rw [dictRemove, if_pos h, dictGet_eq_none]
        intro q hq hqk
        exact hnd.1 (h ▸ hqk ▸ List.mem_map_of_mem Prod.fst hq)
      · rw [dictRemove, if_neg h, dictGet, if_neg h]
        exact ih hnd.2

theorem dictRemove_sublist {β : Type} (d : List (String × β)) (k : String) :
    List.Sublist (dictRemove d k) d := by
  induction d with
  | nil => simp [dictRemove]
  | cons hd tl ih =>
      by_cases h : hd.1 = k
      · rw [dictRemove, if_pos h]
        exact List.sublist_cons_of_sublist hd (List.Sublist.refl tl)
      · rw [dictRemove, if_neg h]
        exact List.Sublist.cons₂ hd ih

/-! ## Helper lemmas: the expected signature is ASCII hex -/

theorem hexDigit_ascii : ∀ m : Nat, m < 16 → charIsAscii (hexDigit m) = true := by
  decide

theorem wordBytes_lt {w b : Nat} (h : b ∈ wordBytes w) : b < 256 := by
  have hle : b ≤ 255 := by
    simp only [wordBytes, List.mem_cons, List.not_mem_nil, or_false] at h
    rcases h with h | h | h | h <;> (rw [h]; exact Nat.and_le_right)
  omega

theorem sha256_mem_lt {msg : List Nat} {b : Nat} (h : b ∈ sha256 msg) :
    b < 256 := by
  simp only [sha256, List.mem_flatMap] at h
  obtain ⟨w, _, hw⟩ := h
  exact wordBytes_lt hw

theorem strIsAscii_bytesToHexStr {bs : List Nat} (h : ∀ b ∈ bs, b < 256) :
    strIsAscii (bytesToHexStr bs) = true := by
  rw [strIsAscii, bytesToHexStr]
  rw [show (String.mk (bs.flatMap byteToHex)).data = bs.flatMap byteToHex from rfl]
  rw [List.all_eq_true]
  intro c hc
  rw [List.mem_flatMap] at hc
  obtain ⟨b, hb, hcb⟩ := hc
  have hblt := h b hb
  simp only [byteToHex, List.mem_cons, List.not_mem_nil, or_false] at hcb
  rcases hcb with hcb | hcb
  · rw [hcb]
    exact hexDigit_ascii _ (Nat.div_lt_of_lt_mul (by omega))
  · rw [hcb]
    exact hexDigit_ascii _ (Nat.mod_lt _ (by omega))

theorem strIsAscii_hmacSha256Hex (key msg : String) :
    strIsAscii (hmacSha256Hex key msg) = true := by
  rw [hmacSha256Hex]
  refine strIsAscii_bytesToHexStr (fun b hb => ?_)
  rw [hmacSha256] at hb
  exact sha256_mem_lt hb

/-! ## Helper lemmas: eviction keeps the size under the cap -/

theorem nonceEvict_sublist (seen : List (String × Int)) (m : Nat) (c : Int) :
    List.Sublist (nonceEvict seen m c) seen := by
  rw [nonceEvict]
  by_cases h : (seen.filter (fun p => decide (c ≤ p.2))).length ≤ m
  · rw [if_pos h]
    exact List.filter_sublist seen
  · rw [if_neg h]
    exact List.Sublist.trans (List.filter_sublist _) (List.filter_sublist seen)

theorem nonceEvict_mem_ge {seen : List (String × Int)} {m : Nat} {c : Int}
    {p : String × Int} (h : p ∈ nonceEvict seen m c) : c ≤ p.2 := by
  rw [nonceEvict] at h
  by_cases hb : (seen.filter (fun q => decide (c ≤ q.2))).length ≤ m
  · rw [if_pos hb] at h
    simpa using (List.mem_filter.mp h).2
  · rw [if_neg hb] at h
    have h2 := (List.filter_sublist _).mem h
    simpa using (List.mem_filter.mp h2).2

theorem overflow_filter_length_le {α : Type} (kept : List α) (key : α → String)
    (sorted : List α) (hperm : sorted.Perm kept) (max_entries : Nat)
    (hover : max_entries < kept.length) :
    (kept.filter
      (fun p => !(((sorted.take (kept.length - max_entries)).map key).contains (key p)))).length
      ≤ max_entries := by
  set ov := kept.length - max_entries with hov
  set victims := (sorted.take ov).map key with hvic
  set p := fun x => !(victims.contains (key x)) with hp
  have hperm2 : (kept.filter p).Perm (sorted.filter p) := (hperm.filter p).symm
  have hsplit : sorted = sorted.take ov ++ sorted.drop ov :=
    (List.take_append_drop ov sorted).symm
  have htake : (sorted.take ov).filter p = [] := by
    rw [List.filter_eq_nil_iff]
    intro a ha
    have hmem : key a ∈ victims := List.mem_map_of_mem key ha
    simpa [hp] using hmem
  have hlen : (sorted.filter p).length ≤ (sorted.drop ov).length := by
    conv_lhs => rw [hsplit]
    rw [List.filter_append, htake, List.nil_append]
    exact List.length_filter_le _ _
  have hdrop : (sorted.drop ov).length = sorted.length - ov := List.length_drop ov sorted
  have hslen : sorted.length = kept.length := hperm.length_eq
  have hfin : (kept.filter p).length = (sorted.filter p).length := hperm2.length_eq
  omega

theorem nonceEvict_length_le (seen : List (String × Int)) (m : Nat) (c : Int) :
    (nonceEvict seen m c).length ≤ m := by
  rw [nonceEvict]
  by_cases h : (seen.filter (fun p => decide (c ≤ p.2))).length ≤ m
  · rw [if_pos h]; exact h
  · rw [if_neg h]
    exact overflow_filter_length_le _ Prod.fst _
      (List.perm_insertionSort tsLE _) m (by omega)

theorem cacheEvict_sublist {α : Type} (store : List (String × (Int × α)))
    (m : Nat) (now : Int) : List.Sublist (cacheEvict store m now) store := by
  rw [cacheEvict]
  by_cases h : (store.filter (fun p => decide (now < p.2.1))).length ≤ m
  · rw [if_pos h]
    exact List.filter_sublist store
  · rw [if_neg h]
    exact List.Sublist.trans (List.filter_sublist _) (List.filter_sublist store)

theorem cacheEvict_mem_gt {α : Type} {store : List (String × (Int × α))}
    {m : Nat} {now : Int} {p : String × (Int × α)}
    (h : p ∈ cacheEvict store m now) : now < p.2.1 := by
  rw [cacheEvict] at h
  by_cases hb : (store.filter (fun q => decide (now < q.2.1))).length ≤ m
  · rw [if_pos hb] at h
    simpa using (List.mem_filter.mp h).2
  · rw [if_neg hb] at h
    have h2 := (List.filter_sublist _).mem h
    simpa using (List.mem_filter.mp h2).2

theorem nonceEvict_overflow_spec (seen : List (String × Int)) (m : Nat) (c : Int)
    (hnd : ((seen.filter (fun p => decide (c ≤ p.2))).map Prod.fst).Nodup)
    (hover : m < (seen.filter (fun p => decide (c ≤ p.2))).length) :
    (nonceEvict seen m c).length = m ∧
    (∀ p ∈ seen.filter (fun p => decide (c ≤ p.2)), p ∉ nonceEvict seen m c →
      ∀ q ∈ nonceEvict seen m c, p.2 ≤ q.2) := by
  set kept := seen.filter (fun p => decide (c ≤ p.2)) with hkept
  set sorted := kept.insertionSort tsLE with hsorted
  set ov := kept.length - m with hov
  set victims := (sorted.take ov).map Prod.fst with hvic
  set pred : (String × Int) → Bool :=
    fun p => !(victims.contains p.1) with hpred
  have hres : nonceEvict seen m c = kept.filter pred := by
    rw [nonceEvict, if_neg (by rw [← hkept]; omega)]
  have hperm : sorted.Perm kept := List.perm_insertionSort tsLE kept
  have hsplit : sorted = sorted.take ov ++ sorted.drop ov :=
    (List.take_append_drop ov sorted).symm
  have hndsorted : (sorted.map Prod.fst).Nodup :=
    ((hperm.map Prod.fst).nodup_iff).mpr hnd
  have hdisj : ∀ a ∈ sorted.take ov, ∀ b ∈ sorted.drop ov, a.1 ≠ b.1 := by
    intro a ha b hb hab
    rw [hsplit, List.map_append, List.nodup_append] at hndsorted
    exact hndsorted.2.2 (List.mem_map_of_mem Prod.fst ha)
      (hab ▸ List.mem_map_of_mem Prod.fst hb)
  have htake : (sorted.take ov).filter pred = [] := by
    rw [List.filter_eq_nil_iff]
    intro a ha
    have hmem : a.1 ∈ victims := List.mem_map_of_mem Prod.fst ha
    simpa [hpred] using hmem
  have hdropkeep : ∀ b ∈ sorted.drop ov, pred b = true := by
    intro b hb
    have hnot : b.1 ∉ victims := by
      rw [hvic, List.mem_map]
      rintro ⟨a, ha, hax⟩
      exact hdisj a ha b hb hax
    simpa [hpred] using hnot
  have hdrop : (sorted.drop ov).filter pred = sorted.drop ov :=
    List.filter_eq_self.mpr hdropkeep
  have hpermres : (kept.filter pred).Perm (sorted.drop ov) := by
    refine ((hperm.filter pred).symm).trans ?_
    conv_lhs => rw [hsplit]
    rw [List.filter_append, htake, hdrop, List.nil_append]
  have hlen : (nonceEvict seen m c).length = m := by
    rw [hres, hpermres.length_eq, List.length_drop, hperm.length_eq]
    omega
  refine ⟨hlen, ?_⟩
  intro p hp hpnot q hq
  rw [hres] at hpnot hq
  have hq2 : q ∈ sorted.drop ov := hpermres.mem_iff.mp hq
  have hpsorted : p ∈ sorted := hperm.mem_iff.mpr hp
  rw [hsplit, List.mem_append] at hpsorted
  rcases hpsorted with hpt | hpd
  · have hpair : List.Pairwise tsLE sorted := List.sorted_insertionSort tsLE kept
    rw [hsplit, List.pairwise_append] at hpair
    exact hpair.2.2 p hpt q hq2
  · exact absurd (List.mem_filter.mpr ⟨hp, hdropkeep p hpd⟩) hpnot

theorem cacheEvict_length_le {α : Type} (store : List (String × (Int × α)))
    (m : Nat) (now : Int) : (cacheEvict store m now).length ≤ m := by
  rw [cacheEvict]
  by_cases h : (store.filter (fun p => decide (now < p.2.1))).length ≤ m
  · rw [if_pos h]; exact h
  · rw [if_neg h]
    exact overflow_filter_length_le _ Prod.fst _
      (List.perm_insertionSort expLE _) m (by omega)

theorem cacheEvict_sublist_kept {α : Type} (store : List (String × (Int × α)))
    (m : Nat) (now : Int) :
    List.Sublist (cacheEvict store m now)
      (store.filter (fun p => decide (now < p.2.1))) := by
  rw [cacheEvict]
  by_cases h : (store.filter (fun p => decide (now < p.2.1))).length ≤ m
  · rw [if_pos h]
  · rw [if_neg h]
    exact List.filter_sublist _

theorem length_dictSet_le {β : Type} (d : List (String × β)) (k : String)
    (v : β) : (dictSet d k v).length ≤ d.length + 1 := by
  induction d with
  | nil => simp [dictSet]
  | cons hd tl ih =>
      by_cases h : hd.1 = k
      · rw [dictSet, if_pos h]
        simp
      · rw [dictSet, if_neg h]
        simpa using Nat.succ_le_succ ih

/-! ## Characterization lemmas for `validate_and_store` and `pop` -/

theorem nonceEvict_of_le {seen : List (String × Int)} {m : Nat} {c : Int}
    (h : (seen.filter (fun p => decide (c ≤ p.2))).length ≤ m) :
    nonceEvict seen m c = seen.filter (fun p => decide (c ≤ p.2)) := by
  rw [nonceEvict, if_pos h]

theorem dictGet_nonceEvict_some {seen : List (String × Int)} {m : Nat}
    {c : Int} {k : String} {v : Int} (hcap : seen.length ≤ m)
    (hget : dictGet seen k = some v) (hc : c ≤ v) :
    dictGet (nonceEvict seen m c) k = some v := by
  rw [nonceEvict_of_le (le_trans (List.length_filter_le _ _) hcap)]
  exact dictGet_filter_some hget (by simpa using hc)

theorem validate_and_store_replay (s : NonceStore) (nonce : String)
    (ts ttl now : Int) {t : Int}
    (hget : dictGet (nonceEvict s.seen s.max_entries (now - ttl)) nonce = some t)
    (hhot : now - ttl ≤ t) :
    s.validate_and_store nonce ts ttl now
      = ({ s with seen := nonceEvict s.seen s.max_entries (now - ttl) },
         some .replayed) := by
  simp only [NonceStore.validate_and_store, hget]
  rw [if_pos hhot]

theorem validate_and_store_fresh (s : NonceStore) (nonce : String)
    (ts ttl now : Int)
    (hget : dictGet (nonceEvict s.seen s.max_entries (now - ttl)) nonce = none) :
    s.validate_and_store nonce ts ttl now
      = ({ s with
            seen := dictSet (nonceEvict s.seen s.max_entries (now - ttl)) nonce ts },
         none) := by
  simp only [NonceStore.validate_and_store, hget]

theorem pop_result_absent {α : Type} (c : SessionCache α) (sid : String)
    (now : Int) (h : dictGet c.store sid = none) :
    (c.pop sid now).2 = none := by
  have h1 : dictGet (cacheEvict c.store c.max_entries now) sid = none :=
    dictGet_sublist_none (cacheEvict_sublist c.store c.max_entries now) h
  simp only [SessionCache.pop, h1]

theorem pop_result_expired {α : Type} (c : SessionCache α) (sid : String)
    (now : Int) {e : Int} {p : α} (hnd : (c.store.map Prod.fst).Nodup)
    (hget : dictGet c.store sid = some (e, p)) (hexp : e ≤ now) :
    (c.pop sid now).2 = none := by
  have h1 : dictGet (c.store.filter (fun q => decide (now < q.2.1))) sid = none :=
    dictGet_filter_none hnd hget (by simpa using hexp)
  have h2 : dictGet (cacheEvict c.store c.max_entries now) sid = none :=
    dictGet_sublist_none (cacheEvict_sublist_kept c.store c.max_entries now) h1
  simp only [SessionCache.pop, h2]

theorem pop_result_fresh {α : Type} (c : SessionCache α) (sid : String)
    (now : Int) {e : Int} {p : α} (hcap : c.store.length ≤ c.max_entries)
    (hget : dictGet c.store sid = some (e, p)) (hfresh : now < e) :
    (c.pop sid now).2 = some p := by
  have hev : cacheEvict c.store c.max_entries now
      = c.store.filter (fun q => decide (now < q.2.1)) := by
    rw [cacheEvict, if_pos (le_trans (List.length_filter_le _ _) hcap)]
  have h1 : dictGet (cacheEvict c.store c.max_entries now) sid = some (e, p) := by
    rw [hev]
    exact dictGet_filter_some hget (by simpa using hfresh)
  simp only [SessionCache.pop, h1]
  rw [if_neg (not_le.mpr hfresh)]

theorem pop_removes_key {α : Type} (c : SessionCache α) (sid : String)
    (now : Int) (hnd : (c.store.map Prod.fst).Nodup) :
    dictGet (c.pop sid now).1.store sid = none := by
  have hndev : ((cacheEvict c.store c.max_entries now).map Prod.fst).Nodup :=
    hnd.sublist ((cacheEvict_sublist c.store c.max_entries now).map Prod.fst)
  rw [SessionCache.pop]
  rcases hget : dictGet (cacheEvict c.store c.max_entries now) sid with _ | record
  · simpa using hget
  · by_cases hrec : record.1 ≤ now
    · simp only [if_pos hrec]
      exact dictGet_dictRemove_self hndev
    · simp only [if_neg hrec]
      exact dictGet_dictRemove_self hndev

/-! ## Operation sequences over the bounded stores -/

/-- One externally triggerable `NonceStore` operation. -/
inductive NonceOp where
  | validate (nonce : String) (timestamp ttl_seconds now_ts : Int)

/-- Run one operation against a `NonceStore` (the store that results whether
or not the call raises). -/
def NonceStore.exec (s : NonceStore) : NonceOp → NonceStore
  | .validate nonce ts ttl now => (s.validate_and_store nonce ts ttl now).1

/-- `EphemeralSessionCache.clear()`. -/
def SessionCache.clear {α : Type} (c : SessionCache α) : SessionCache α :=
  { c with store := [] }

/-- One externally triggerable `EphemeralSessionCache` operation. -/
inductive CacheOp (α : Type) where
  | set (session_id : String) (payload : α) (ttl_seconds : Int) (now_exp now_evict : Int)
  | pop (session_id : String) (now : Int)
  | clear

/-- Run one operation against an `EphemeralSessionCache`. -/
def SessionCache.exec {α : Type} (c : SessionCache α) : CacheOp α → SessionCache α
  | .set sid p ttl ne nv => c.set sid p ttl ne nv
  | .pop sid now => (c.pop sid now).1
  | .clear => c.clear

theorem nonceExec_max (s : NonceStore) (op : NonceOp) :
    (s.exec op).max_entries = s.max_entries := by
  cases op with
  | validate nonce ts ttl now =>
      rw [NonceStore.exec, NonceStore.validate_and_store]
      split
      · split
        · rfl
        · rfl
      · rfl

theorem nonceExec_length_le (s : NonceStore) (op : NonceOp) :
    (s.exec op).seen.length ≤ s.max_entries + 1 := by
  cases op with
  | validate nonce ts ttl now =>
      have hev := nonceEvict_length_le s.seen s.max_entries (now - ttl)
      have hset := length_dictSet_le (nonceEvict s.seen s.max_entries (now - ttl))
        nonce ts
      rw [NonceStore.exec, NonceStore.validate_and_store]
      split
      · split
        · show (nonceEvict s.seen s.max_entries (now - ttl)).length ≤ _
          omega
        · show (dictSet (nonceEvict s.seen s.max_entries (now - ttl)) nonce ts).length ≤ _
          omega
      · show (dictSet (nonceEvict s.seen s.max_entries (now - ttl)) nonce ts).length ≤ _
        omega

theorem cacheExec_max {α : Type} (c : SessionCache α) (op : CacheOp α) :
    (c.exec op).max_entries = c.max_entries := by
  cases op with
  | set sid p ttl ne nv => rfl
  | clear => rfl
  | pop sid now =>
      rw [SessionCache.exec, SessionCache.pop]
      split
      · rfl
      · split
        · rfl
        · rfl

theorem cacheExec_length_le {α : Type} (c : SessionCache α)
    (op : CacheOp α) : (c.exec op).store.length ≤ c.max_entries + 1 := by
  cases op with
  | set sid p ttl ne nv =>
      have hev := cacheEvict_length_le c.store c.max_entries nv
      exact le_trans (length_dictSet_le _ _ _) (by omega)
  | clear => simp [SessionCache.clear, SessionCache.exec]
  | pop sid now =>
      have hev := cacheEvict_length_le c.store c.max_entries now
      have hrm := (dictRemove_sublist (cacheEvict c.store c.max_entries now) sid).length_le
      rw [SessionCache.exec, SessionCache.pop]
      split
      · show (cacheEvict c.store c.max_entries now).length ≤ _
        omega
      · split
        · show (dictRemove (cacheEvict c.store c.max_entries now) sid).length ≤ _
          omega
        · show (dictRemove (cacheEvict c.store c.max_entries now) sid).length ≤ _
          omega

theorem nonceFoldl_exec_length_le (ops : List NonceOp) (s : NonceStore)
    (op : NonceOp) :
    (((op :: ops).foldl NonceStore.exec s)).seen.length ≤ s.max_entries + 1 := by
  induction ops generalizing s op with
  | nil => simpa using nonceExec_length_le s op
  | cons op2 tl ih =>
      have h := ih (s.exec op) op2
      rw [nonceExec_max] at h
      simpa using h

theorem cacheFoldl_exec_length_le {α : Type} (ops : List (CacheOp α))
    (c : SessionCache α) (op : CacheOp α) :
    (((op :: ops).foldl SessionCache.exec c)).store.length ≤ c.max_entries + 1 := by
  induction ops generalizing c op with
  | nil => simpa using cacheExec_length_le c op
  | cons op2 tl ih =>
      have h := ih (c.exec op) op2
      rw [cacheExec_max] at h
      simpa using h

/-! ## Evaluation lemmas for the state replay guard -/

theorem validate_and_mark_fresh (g : StateReplayGuard) (state : String)
    (now : Int) (habs : dictGet g.seen state = none) :
    g.validate_and_mark state now
      = ({ g with seen :=
            (dictSet (g.seen.filter (fun p => decide (now - (g.ttl_seconds : Int) ≤ p.2)))
              state now) }, none) := by
  have h1 : dictGet
      (g.seen.filter (fun p => decide (now - (g.ttl_seconds : Int) ≤ p.2))) state = none :=
    dictGet_sublist_none (List.filter_sublist _) habs
  have h2 : dictMem
      (g.seen.filter (fun p => decide (now - (g.ttl_seconds : Int) ≤ p.2))) state = false := by
    rw [dictMem_eq_isSome, h1]
    rfl
  simp only [StateReplayGuard.validate_and_mark]
  rw [if_neg (by rw [h2]; exact Bool.false_ne_true)]

theorem validate_and_mark_replay (g : StateReplayGuard) (state : String)
    (now : Int) {t : Int} (hget : dictGet g.seen state = some t)
    (hhot : now - (g.ttl_seconds : Int) ≤ t) :
    g.validate_and_mark state now
      = ({ g with seen :=
            g.seen.filter (fun p => decide (now - (g.ttl_seconds : Int) ≤ p.2)) },
         some "state_replayed") := by
  have h1 : dictGet
      (g.seen.filter (fun p => decide (now - (g.ttl_seconds : Int) ≤ p.2))) state = some t :=
    dictGet_filter_some hget (by simpa using hhot)
  have h2 : dictMem
      (g.seen.filter (fun p => decide (now - (g.ttl_seconds : Int) ≤ p.2))) state = true := by
    rw [dictMem_eq_isSome, h1]
    rfl
  simp only [StateReplayGuard.validate_and_mark]
  rw [if_pos h2]

theorem matchesStatePattern_not_empty {s : String}
    (h : matchesStatePattern s = true) : s ≠ "" := by
  intro hs
  rw [hs] at h
  exact absurd h (by decide)

theorem vsr_invalid (g : StateReplayGuard) (stOpt : Option String) (now : Int)
    (h : matchesStatePattern (pyStrip (stOpt.getD "")) = false) :
    validate_state_or_raise g stOpt now = (g, .error "invalid_state") := by
  simp only [validate_state_or_raise]
  rw [if_pos (Or.inr (by rw [h]; exact Bool.false_ne_true))]

theorem vsr_ok (g : StateReplayGuard) (stOpt : Option String) (now : Int)
    (hm : matchesStatePattern (pyStrip (stOpt.getD "")) = true)
    (habs : dictGet g.seen (pyStrip (stOpt.getD "")) = none) :
    validate_state_or_raise g stOpt now
      = ({ g with seen :=
            (dictSet (g.seen.filter (fun p => decide (now - (g.ttl_seconds : Int) ≤ p.2)))
              (pyStrip (stOpt.getD "")) now) }, .ok (pyStrip (stOpt.getD ""))) := by
  simp only [validate_state_or_raise]
  rw [if_neg (by
    rw [not_or]
    exact ⟨matchesStatePattern_not_empty hm, not_not_intro hm⟩),
    validate_and_mark_fresh g _ now habs]

theorem vsr_replay (g : StateReplayGuard) (stOpt : Option String) (now : Int)
    (hm : matchesStatePattern (pyStrip (stOpt.getD "")) = true) {t : Int}
    (hget : dictGet g.seen (pyStrip (stOpt.getD "")) = some t)
    (hhot : now - (g.ttl_seconds : Int) ≤ t) :
    validate_state_or_raise g stOpt now
      = ({ g with seen :=
            g.seen.filter (fun p => decide (now - (g.ttl_seconds : Int) ≤ p.2)) },
         .error "state_replayed") := by
  simp only [validate_state_or_raise]
  rw [if_neg (by
    rw [not_or]
    exact ⟨matchesStatePattern_not_empty hm, not_not_intro hm⟩),
    validate_and_mark_replay g _ now hget hhot]

/-! ## Evaluation lemmas for `verify_signed_request` -/

theorem verify_eval_valid (s : Settings) (store : NonceStore) (nonce : String)
    (ts : Int) (now : Int) (now_ts : Int)
    (h1 : minFromTs ≤ ts) (h2 : ts ≤ maxFromTs)
    (h3 : |now - (ts : Int)| ≤ (s.request_ttl_seconds : Int)) :
    verify_signed_request s.client_id nonce ts
      (hmacSha256Hex s.client_secret (s.client_id ++ "." ++ nonce ++ "." ++ toString ts))
      s store now now_ts
      = store.validate_and_store nonce ts s.request_ttl_seconds now_ts := by
  simp only [verify_signed_request]
  rw [if_neg (show ¬(s.client_id ≠ s.client_id) by simp),
    if_neg (show ¬(ts < minFromTs ∨ maxFromTs < ts) by
      rw [not_or]; exact ⟨not_lt.mpr h1, not_lt.mpr h2⟩),
    if_neg (not_lt.mpr h3),
    if_neg (not_not_intro
      ⟨strIsAscii_hmacSha256Hex s.client_secret _,
       strIsAscii_hmacSha256Hex s.client_secret _⟩),
    if_neg (show ¬(hmacSha256Hex s.client_secret
        (s.client_id ++ "." ++ nonce ++ "." ++ toString ts)
        ≠ hmacSha256Hex s.client_secret
        (s.client_id ++ "." ++ nonce ++ "." ++ toString ts)) by simp)]

theorem verify_eval_badsig (s : Settings) (store : NonceStore) (nonce : String)
    (ts : Int) (sig : String) (now : Int) (now_ts : Int)
    (h1 : minFromTs ≤ ts) (h2 : ts ≤ maxFromTs)
    (h3 : |now - (ts : Int)| ≤ (s.request_ttl_seconds : Int))
    (hascii : strIsAscii sig = true)
    (hne : hmacSha256Hex s.client_secret
      (s.client_id ++ "." ++ nonce ++ "." ++ toString ts) ≠ sig) :
    verify_signed_request s.client_id nonce ts sig s store now now_ts
      = (store, some .badSignature) := by
  simp only [verify_signed_request]
  rw [if_neg (show ¬(s.client_id ≠ s.client_id) by simp),
    if_neg (show ¬(ts < minFromTs ∨ maxFromTs < ts) by
      rw [not_or]; exact ⟨not_lt.mpr h1, not_lt.mpr h2⟩),
    if_neg (not_lt.mpr h3),
    if_neg (not_not_intro ⟨strIsAscii_hmacSha256Hex s.client_secret _, hascii⟩),
    if_pos hne]

theorem verify_eval_expired (s : Settings) (store : NonceStore) (nonce : String)
    (ts : Int) (sig : String) (now : Int) (now_ts : Int)
    (h1 : minFromTs ≤ ts) (h2 : ts ≤ maxFromTs)
    (hstale : (s.request_ttl_seconds : Int) < |now - (ts : Int)|) :
    verify_signed_request s.client_id nonce ts sig s store now now_ts
      = (store, some .expired) := by
  simp only [verify_signed_request]
  rw [if_neg (show ¬(s.client_id ≠ s.client_id) by simp),
    if_neg (show ¬(ts < minFromTs ∨ maxFromTs < ts) by
      rw [not_or]; exact ⟨not_lt.mpr h1, not_lt.mpr h2⟩),
    if_pos hstale]

theorem validate_and_store_update (s : NonceStore) (nonce : String)
    (ts ttl now : Int) {t : Int}
    (hget : dictGet (nonceEvict s.seen s.max_entries (now - ttl)) nonce = some t)
    (hcold : ¬ (now - ttl ≤ t)) :
    s.validate_and_store nonce ts ttl now
      = ({ s with
            seen := dictSet (nonceEvict s.seen s.max_entries (now - ttl)) nonce ts },
         none) := by
  simp only [NonceStore.validate_and_store, hget]
  rw [if_neg hcold]

/-! ## The claims -/

/-- **C1 (counterexample).** As stated, the claim fails on a reachable
over-capacity store: with `max_entries = 1` and one fresh foreign entry, a
first valid call for nonce `"n1"` succeeds and stores it (leaving the store
one over the cap, as in C4); the second, *identical* call 100 seconds later
— timestamp still within the TTL window, stored timestamp still within the
TTL window — also succeeds instead of failing with `Replayed`, because the
second call's overflow eviction (`sorted(items)[:overflow]`) drops `"n1"`,
the oldest-timestamp entry, before the replay lookup. -/
theorem claim_C1_counterexample :
    verify_signed_request "c" "n1" 1700000000
      (hmacSha256Hex "s" ("c" ++ "." ++ "n1" ++ "." ++ toString (1700000000 : Int)))
      (Settings.mk "c" "s" 300) (NonceStore.mk [("x", 1700000050)] 1)
      1700000000 1700000000
      = (NonceStore.mk [("x", 1700000050), ("n1", 1700000000)] 1, none)
    ∧ |(1700000100 : Int) - 1700000000| ≤ 300
    ∧ 1700000100 - 300 ≤ (1700000000 : Int)
    ∧ (verify_signed_request "c" "n1" 1700000000
        (hmacSha256Hex "s" ("c" ++ "." ++ "n1" ++ "." ++ toString (1700000000 : Int)))
        (Settings.mk "c" "s" 300)
        (NonceStore.mk [("x", 1700000050), ("n1", 1700000000)] 1)
        1700000100 1700000100).2 = none := by
  decide

/-- **C1 (amended).** For every valid signed request (client id equal to the
configured one, timestamp within the TTL window, signature equal to the
expected HMAC) on a store strictly under capacity — so that the capacity
eviction cannot drop the nonce between the two calls —
`verify_signed_request` succeeds exactly once for a given nonce: the first
call succeeds and records `nonce → timestamp`; a second call with the
identical nonce and a timestamp still within the TTL window fails with
`Replayed` (`HTTPException` with status 401 and detail "Nonce already used"),
and the replaying call does not update the stored timestamp of that nonce.
Without the capacity hypothesis the overflow eviction can drop the stored
nonce and the identical replay succeeds (`claim_C1_counterexample`). -/
theorem claim_C1 (settings : Settings) (store₀ : NonceStore) (nonce : String)
    (ts : Int) (sig : String) (now₁ now₂ : Int) (now_ts₁ now_ts₂ : Int)
    (h_absent : dictGet store₀.seen nonce = none)
    (h_cap : store₀.seen.length < store₀.max_entries)
    (h_range1 : minFromTs ≤ ts) (h_range2 : ts ≤ maxFromTs)
    (h_fresh1 : |now₁ - (ts : Int)| ≤ (settings.request_ttl_seconds : Int))
    (h_sig : sig = hmacSha256Hex settings.client_secret
      (settings.client_id ++ "." ++ nonce ++ "." ++ toString ts))
    (h_fresh2 : |now₂ - (ts : Int)| ≤ (settings.request_ttl_seconds : Int))
    (h_hot : now_ts₂ - settings.request_ttl_seconds ≤ ts) :
    (verify_signed_request settings.client_id nonce ts sig settings store₀
        now₁ now_ts₁).2 = none
    ∧ dictGet (verify_signed_request settings.client_id nonce ts sig settings
        store₀ now₁ now_ts₁).1.seen nonce = some ts
    ∧ (verify_signed_request settings.client_id nonce ts sig settings
        (verify_signed_request settings.client_id nonce ts sig settings store₀
          now₁ now_ts₁).1 now₂ now_ts₂).2 = some VerifyError.replayed
    ∧ VerifyError.replayed.statusCode = 401
    ∧ VerifyError.replayed.detail = "Nonce already used"
    ∧ dictGet (verify_signed_request settings.client_id nonce ts sig settings
        (verify_signed_request settings.client_id nonce ts sig settings store₀
          now₁ now_ts₁).1 now₂ now_ts₂).1.seen nonce = some ts := by
  subst h_sig
  have habs1 : dictGet (nonceEvict store₀.seen store₀.max_entries
      (now_ts₁ - settings.request_ttl_seconds)) nonce = none :=
    dictGet_sublist_none (nonceEvict_sublist _ _ _) h_absent
  have hfirst : verify_signed_request settings.client_id nonce ts
      (hmacSha256Hex settings.client_secret
        (settings.client_id ++ "." ++ nonce ++ "." ++ toString ts))
      settings store₀ now₁ now_ts₁
      = ({ store₀ with
            seen := dictSet (nonceEvict store₀.seen store₀.max_entries
              (now_ts₁ - settings.request_ttl_seconds)) nonce ts }, none) := by
    rw [verify_eval_valid settings store₀ nonce ts now₁ now_ts₁ h_range1 h_range2 h_fresh1,
      validate_and_store_fresh store₀ nonce ts settings.request_ttl_seconds now_ts₁ habs1]
  rw [hfirst]
  have hget1 : dictGet (dictSet (nonceEvict store₀.seen store₀.max_entries
      (now_ts₁ - settings.request_ttl_seconds)) nonce ts) nonce = some ts :=
    dictGet_dictSet_self _ nonce ts
  have hlen1 : (dictSet (nonceEvict store₀.seen store₀.max_entries
      (now_ts₁ - settings.request_ttl_seconds)) nonce ts).length
      ≤ store₀.max_entries := by
    have hsub := (nonceEvict_sublist store₀.seen store₀.max_entries
      (now_ts₁ - settings.request_ttl_seconds)).length_le
    have hset := length_dictSet_le (nonceEvict store₀.seen store₀.max_entries
      (now_ts₁ - settings.request_ttl_seconds)) nonce ts
    omega
  have hget2 : dictGet (nonceEvict
      (dictSet (nonceEvict store₀.seen store₀.max_entries
        (now_ts₁ - settings.request_ttl_seconds)) nonce ts)
      store₀.max_entries (now_ts₂ - settings.request_ttl_seconds)) nonce = some ts :=
    dictGet_nonceEvict_some hlen1 hget1 (by omega)
  have hsecond : verify_signed_request settings.client_id nonce ts
      (hmacSha256Hex settings.client_secret
        (settings.client_id ++ "." ++ nonce ++ "." ++ toString ts))
      settings ({ store₀ with
        seen := dictSet (nonceEvict store₀.seen store₀.max_entries
          (now_ts₁ - settings.request_ttl_seconds)) nonce ts }) now₂ now_ts₂
      = ({ store₀ with
            seen := nonceEvict
              (dictSet (nonceEvict store₀.seen store₀.max_entries
                (now_ts₁ - settings.request_ttl_seconds)) nonce ts)
              store₀.max_entries (now_ts₂ - settings.request_ttl_seconds) },
         some VerifyError.replayed) := by
    rw [verify_eval_valid settings _ nonce ts now₂ now_ts₂ h_range1 h_range2 h_fresh2,
      validate_and_store_replay _ nonce ts settings.request_ttl_seconds now_ts₂
        hget2 (by omega)]
  rw [hsecond]
  exact ⟨rfl, hget1, rfl, rfl, rfl, hget2⟩

/-- **C2.** `verify_signed_request` compares the supplied signature against
`hmacSha256Hex client_secret "{client_id}.{nonce}.{timestamp}"` (the
lowercase-hex HMAC-SHA256 digest; `sha256Hex_fips_vector` and
`hmacSha256Hex_rfc4231_vector` pin the hash down): with client id and
timestamp otherwise valid, every ASCII signature different from the expected
digest fails with `BadSignature` (401, "Invalid signature") and leaves the
store untouched, and a signature equal to the expected digest passes the
signature check, proceeding to the nonce check. -/
theorem claim_C2 (settings : Settings) (store : NonceStore) (nonce : String)
    (ts : Int) (sig : String) (now : Int) (now_ts : Int)
    (h_range1 : minFromTs ≤ ts) (h_range2 : ts ≤ maxFromTs)
    (h_fresh : |now - (ts : Int)| ≤ (settings.request_ttl_seconds : Int))
    (h_ascii : strIsAscii sig = true) :
    (sig ≠ hmacSha256Hex settings.client_secret
        (settings.client_id ++ "." ++ nonce ++ "." ++ toString ts) →
      verify_signed_request settings.client_id nonce ts sig settings store
          now now_ts = (store, some VerifyError.badSignature)
      ∧ VerifyError.badSignature.statusCode = 401
      ∧ VerifyError.badSignature.detail = "Invalid signature")
    ∧ (sig = hmacSha256Hex settings.client_secret
        (settings.client_id ++ "." ++ nonce ++ "." ++ toString ts) →
      verify_signed_request settings.client_id nonce ts sig settings store
          now now_ts
        = store.validate_and_store nonce ts settings.request_ttl_seconds now_ts) := by
  constructor
  · intro hne
    exact ⟨verify_eval_badsig settings store nonce ts sig now now_ts
      h_range1 h_range2 h_fresh h_ascii (fun h => hne h.symm), rfl, rfl⟩
  · intro heq
    subst heq
    exact verify_eval_valid settings store nonce ts now now_ts
      h_range1 h_range2 h_fresh

/-- **C3 (counterexample).** As stated, the claim fails at a timestamp
outside the range `datetime.fromtimestamp` supports: for
`timestamp = 253402300800` (one second past 9999-12-31T23:59:59Z) the
timestamp is stale (`|now − ts| > ttl`), yet the handler raises the
conversion error (HTTP 500) instead of `Expired` (401). -/
theorem claim_C3_counterexample :
    (300 : Int) < |(1700000000 : Int) - ((253402300800 : Int) : Int)|
    ∧ (verify_signed_request "client" "n" 253402300800 ""
        (Settings.mk "client" "secret" 300) (NonceStore.mk [] 10000)
        1700000000 1700000000).2 ≠ some VerifyError.expired
    ∧ (verify_signed_request "client" "n" 253402300800 ""
        (Settings.mk "client" "secret" 300) (NonceStore.mk [] 10000)
        1700000000 1700000000).2 = some VerifyError.timestampOutOfRange := by
  refine ⟨by norm_num, ?_, ?_⟩ <;> decide

/-- **C3 (amended).** For every request whose integer timestamp lies in the
range `datetime.fromtimestamp` supports (`[-62135596800, 253402300799]`) and
satisfies `|now − timestamp| > ttl_seconds`, and whose client id matches,
`verify_signed_request` fails with `Expired` (401, "Request timestamp
expired") for every supplied signature — correct or not — and the nonce
store is left untouched, so the check precedes both the signature
examination and any nonce recording. -/
theorem claim_C3 (settings : Settings) (store : NonceStore) (nonce : String)
    (ts : Int) (sig : String) (now : Int) (now_ts : Int)
    (h_range1 : minFromTs ≤ ts) (h_range2 : ts ≤ maxFromTs)
    (h_stale : (settings.request_ttl_seconds : Int) < |now - (ts : Int)|) :
    verify_signed_request settings.client_id nonce ts sig settings store
        now now_ts = (store, some VerifyError.expired)
    ∧ VerifyError.expired.statusCode = 401
    ∧ VerifyError.expired.detail = "Request timestamp expired" :=
  ⟨verify_eval_expired settings store nonce ts sig now now_ts
    h_range1 h_range2 h_stale, rfl, rfl⟩

/-- **C4 (counterexample).** As stated, the claim fails: eviction runs
*before* the insertion, so inserting a fresh nonce into a full store leaves
`max_entries + 1` entries.  With `max_entries = 1`, two validations of
distinct fresh nonces leave 2 entries. -/
theorem claim_C4_counterexample :
    (((NonceStore.mk [] 1).exec (NonceOp.validate "a" 100 10 100)).exec
        (NonceOp.validate "b" 100 10 100)).seen.length = 2
    ∧ ¬ ((((NonceStore.mk [] 1).exec (NonceOp.validate "a" 100 10 100)).exec
        (NonceOp.validate "b" 100 10 100)).seen.length
          ≤ (NonceStore.mk [] 1).max_entries) := by
  decide

/-- **C4 (amended).** Both stores are bounded, but by `max_entries + 1`, not
`max_entries`: each operation first sweeps/evicts down to at most
`max_entries` entries and then inserts at most one, so immediately after any
operation — and hence after every step of any operation sequence — the entry
count is at most `max_entries + 1`. -/
theorem claim_C4 :
    (∀ (s : NonceStore) (op : NonceOp),
      (s.exec op).seen.length ≤ s.max_entries + 1)
    ∧ (∀ (s : NonceStore) (op : NonceOp) (ops : List NonceOp),
      (((op :: ops).foldl NonceStore.exec s)).seen.length ≤ s.max_entries + 1)
    ∧ (∀ (α : Type) (c : SessionCache α) (op : CacheOp α),
      (c.exec op).store.length ≤ c.max_entries + 1)
    ∧ (∀ (α : Type) (c : SessionCache α) (op : CacheOp α) (ops : List (CacheOp α)),
      (((op :: ops).foldl SessionCache.exec c)).store.length ≤ c.max_entries + 1) :=
  ⟨fun s op => nonceExec_length_le s op,
   fun s op ops => nonceFoldl_exec_length_le ops s op,
   fun _ c op => cacheExec_length_le c op,
   fun _ c op ops => cacheFoldl_exec_length_le ops c op⟩

/-- **C9.** When the `NonceStore` is over capacity after the TTL sweep, the
overflow eviction removes exactly enough entries to bring the count back to
`max_entries`, the survivors form a sublist of the sweep's survivors, and
every dropped entry has a timestamp no larger than every kept entry — i.e.
oldest-timestamp entries are evicted first and no newer entry is dropped
while an older one remains. -/
theorem claim_C9 (seen : List (String × Int)) (max_entries : Nat) (cutoff : Int)
    (h_nodup : ((seen.filter (fun p => decide (cutoff ≤ p.2))).map Prod.fst).Nodup)
    (h_over : max_entries < (seen.filter (fun p => decide (cutoff ≤ p.2))).length) :
    (nonceEvict seen max_entries cutoff).length = max_entries
    ∧ List.Sublist (nonceEvict seen max_entries cutoff)
        (seen.filter (fun p => decide (cutoff ≤ p.2)))
    ∧ (∀ p ∈ seen.filter (fun p => decide (cutoff ≤ p.2)),
        p ∉ nonceEvict seen max_entries cutoff →
        ∀ q ∈ nonceEvict seen max_entries cutoff, p.2 ≤ q.2) := by
  obtain ⟨hlen, hmin⟩ := nonceEvict_overflow_spec seen max_entries cutoff h_nodup h_over
  refine ⟨hlen, ?_, hmin⟩
  rw [nonceEvict, if_neg (by omega)]
  exact List.filter_sublist _

theorem finalize_eval_none {α : Type} (c : SessionCache α) (sid : String)
    (now : Int) (hne : pyStrip sid ≠ "")
    (hpop : (c.pop (pyStrip sid) now).2 = none) :
    (finalize_notion_oauth c sid now).1
      = FinalizeResponse.badRequest "session_expired" "Session not found or expired" := by
  simp only [finalize_notion_oauth]
  rw [if_neg hne]
  rcases hp : c.pop (pyStrip sid) now with ⟨c1, r⟩
  rw [hp] at hpop
  cases r with
  | none => rfl
  | some q => exact absurd hpop (by simp)

/-- **C5 (counterexample).** As stated, the claim fails: when the cache is
over capacity, the bounded-size eviction at the start of `pop` can drop a
present, unexpired entry (the oldest-expiring one) before the lookup, so
`pop` returns `None` although the entry was present and unexpired at the
time of the call.  Here `max_entries = 1` and the cache holds two entries. -/
theorem claim_C5_counterexample :
    dictGet (SessionCache.mk [("a", ((100 : Int), (0 : Nat))), ("b", (200, 1))] 1).store
        "a" = some (100, 0)
    ∧ ((0 : Int) < 100)
    ∧ ((SessionCache.mk [("a", ((100 : Int), (0 : Nat))), ("b", (200, 1))] 1).pop
        "a" 0).2 = none := by
  refine ⟨rfl, by norm_num, ?_⟩
  rfl

/-- **C5 (amended).** For a cache whose entry count is within `max_entries`
(so the capacity eviction cannot interfere), `pop` returns the stored payload
iff the entry is present and unexpired (`now < expires_at`), and in every
case removes the entry in the same operation, so a second `pop` on the same
id returns `None` even within the TTL window, and a `pop` after the TTL has
elapsed (e.g. `ttl_seconds = 0`, making `expires_at ≤ now`) returns `None`
with nothing left behind; a `set` stores `expires_at = now + ttl` with the
payload, which the first conjunct then reads back. -/
theorem claim_C5 {α : Type} (c : SessionCache α) (sid : String) (now : Int)
    (h_nodup : (c.store.map Prod.fst).Nodup)
    (h_cap : c.store.length ≤ c.max_entries) :
    (∀ (e : Int) (p : α), dictGet c.store sid = some (e, p) →
      (c.pop sid now).2 = if now < e then some p else none)
    ∧ (dictGet c.store sid = none → (c.pop sid now).2 = none)
    ∧ dictGet (c.pop sid now).1.store sid = none
    ∧ (∀ now2 : Int, ((c.pop sid now).1.pop sid now2).2 = none)
    ∧ (∀ (payload : α) (ttl : Int) (ne nv : Int),
        dictGet (c.set sid payload ttl ne nv).store sid
          = some (ne + (ttl : Int), payload)) := by
  refine ⟨?_, fun h => pop_result_absent c sid now h,
    pop_removes_key c sid now h_nodup, ?_, ?_⟩
  · intro e p hget
    by_cases hf : now < e
    · rw [if_pos hf]
      exact pop_result_fresh c sid now h_cap hget hf
    · rw [if_neg hf]
      exact pop_result_expired c sid now h_nodup hget (not_lt.mp hf)
  · intro now2
    exact pop_result_absent _ sid now2 (pop_removes_key c sid now h_nodup)
  · intro payload ttl ne nv
    exact dictGet_dictSet_self _ sid _

/-- **C6.** A state string whose trimmed form does not match the token
grammar (`[A-Za-z0-9._~-]{8,512}`) is rejected with the `InvalidFormat`
outcome (`ValueError("invalid_state")`) and the guard is untouched; a
matching state not yet recorded succeeds on the first `validate_and_mark`
and is recorded at the current instant, and a second call with the same
value within the guard's TTL fails with the `Replayed` outcome
(`ValueError("state_replayed")`). -/
theorem claim_C6 (g : StateReplayGuard) (stOpt : Option String)
    (now₁ now₂ : Int) :
    (matchesStatePattern (pyStrip (stOpt.getD "")) = false →
      validate_state_or_raise g stOpt now₁ = (g, .error "invalid_state"))
    ∧ (matchesStatePattern (pyStrip (stOpt.getD "")) = true →
      dictGet g.seen (pyStrip (stOpt.getD "")) = none →
      (validate_state_or_raise g stOpt now₁).2 = .ok (pyStrip (stOpt.getD ""))
      ∧ dictGet (validate_state_or_raise g stOpt now₁).1.seen
          (pyStrip (stOpt.getD "")) = some now₁
      ∧ (now₂ - (g.ttl_seconds : Int) ≤ now₁ →
          (validate_state_or_raise (validate_state_or_raise g stOpt now₁).1
            stOpt now₂).2 = .error "state_replayed")) := by
  constructor
  · intro h
    exact vsr_invalid g stOpt now₁ h
  · intro hm habs
    have h1 := vsr_ok g stOpt now₁ hm habs
    refine ⟨by rw [h1], by rw [h1]; exact dictGet_dictSet_self _ _ _, ?_⟩
    intro httl
    rw [h1]
    show (validate_state_or_raise
        ({ g with seen := (dictSet (g.seen.filter
            (fun p => decide (now₁ - (g.ttl_seconds : Int) ≤ p.2)))
          (pyStrip (stOpt.getD "")) now₁) }) stOpt now₂).2
      = Except.error "state_replayed"
    rw [vsr_replay
      ({ g with seen := (dictSet (g.seen.filter
          (fun p => decide (now₁ - (g.ttl_seconds : Int) ≤ p.2)))
        (pyStrip (stOpt.getD "")) now₁) })
      stOpt now₂ hm (dictGet_dictSet_self _ _ _) httl]

/-- **C7 (counterexample).** As stated, the claim fails: the callback marks
the OAuth `state` in the `StateReplayGuard` *before* the network call, so a
network failure leaves the state recorded — the guard's seen-set is not
"left untouched", and retrying the identical request is rejected as an
invalid/replayed state.  (The `EphemeralSessionCache` is indeed untouched.) -/
theorem claim_C7_counterexample :
    (notion_oauth_callback
        (OAuthServerState.mk (StateReplayGuard.mk 600 []) (SessionCache.mk [] 10000))
        (some "authcode") (some "stateAbc123XYZ") "cid" "csec"
        (ExchangeResult.requestError "timeout") "s1" 0 0 0).1
      = CallbackResult.redirectError "Failed to reach Notion API"
    ∧ (notion_oauth_callback
        (OAuthServerState.mk (StateReplayGuard.mk 600 []) (SessionCache.mk [] 10000))
        (some "authcode") (some "stateAbc123XYZ") "cid" "csec"
        (ExchangeResult.requestError "timeout") "s1" 0 0 0).2.guard.seen
      = [("stateAbc123XYZ", 0)]
    ∧ (OAuthServerState.mk (StateReplayGuard.mk 600 [])
        (SessionCache.mk [] 10000)).guard.seen = []
    ∧ (notion_oauth_callback
        ((notion_oauth_callback
          (OAuthServerState.mk (StateReplayGuard.mk 600 []) (SessionCache.mk [] 10000))
          (some "authcode") (some "stateAbc123XYZ") "cid" "csec"
          (ExchangeResult.requestError "timeout") "s1" 0 0 0).2)
        (some "authcode") (some "stateAbc123XYZ") "cid" "csec"
        (ExchangeResult.requestError "timeout") "s2" 1 1 1).1
      = CallbackResult.redirectError "Invalid OAuth state" := by
  refine ⟨rfl, rfl, rfl, rfl⟩

/-- **C7 (amended).** When the exchange with the upstream OAuth provider
fails with a network error or timeout (`httpx.RequestError`), the callback
reports the failure upward as an error redirect and stores no session — the
`EphemeralSessionCache` is untouched — but the `StateReplayGuard` is *not*
untouched: the state was already marked before the network call, it stays
recorded, and an identical retry within the guard's TTL is rejected as an
invalid (replayed) state. -/
theorem claim_C7 (st : OAuthServerState) (code state : Option String)
    (cid csec msg sid sid2 : String) (n1 n2 n3 n1' n2' n3' : Int)
    (ex2 : ExchangeResult)
    (hm : matchesStatePattern (pyStrip (state.getD "")) = true)
    (habs : dictGet st.guard.seen (pyStrip (state.getD "")) = none)
    (hcode : code.getD "" ≠ "")
    (hcid : cid ≠ "") (hcsec : csec ≠ "")
    (httl : n1' - (st.guard.ttl_seconds : Int) ≤ n1) :
    (notion_oauth_callback st code state cid csec
        (ExchangeResult.requestError msg) sid n1 n2 n3).2.cache = st.cache
    ∧ (notion_oauth_callback st code state cid csec
        (ExchangeResult.requestError msg) sid n1 n2 n3).1
      = CallbackResult.redirectError "Failed to reach Notion API"
    ∧ dictGet (notion_oauth_callback st code state cid csec
        (ExchangeResult.requestError msg) sid n1 n2 n3).2.guard.seen
        (pyStrip (state.getD "")) = some n1
    ∧ (notion_oauth_callback
        (notion_oauth_callback st code state cid csec
          (ExchangeResult.requestError msg) sid n1 n2 n3).2
        code state cid csec ex2 sid2 n1' n2' n3').1
      = CallbackResult.redirectError "Invalid OAuth state" := by
  have hv := vsr_ok st.guard state n1 hm habs
  have hcall : notion_oauth_callback st code state cid csec
      (ExchangeResult.requestError msg) sid n1 n2 n3
      = (CallbackResult.redirectError "Failed to reach Notion API",
         { st with guard :=
            { st.guard with seen :=
              (dictSet (st.guard.seen.filter
                  (fun p => decide (n1 - (st.guard.ttl_seconds : Int) ≤ p.2)))
                (pyStrip (state.getD "")) n1) } }) := by
    simp only [notion_oauth_callback, hv]
    rw [if_neg hcode, if_neg (not_or.mpr ⟨hcid, hcsec⟩)]
  rw [hcall]
  refine ⟨rfl, rfl, dictGet_dictSet_self _ _ _, ?_⟩
  have hv2 := vsr_replay
    ({ st.guard with seen :=
        (dictSet (st.guard.seen.filter
            (fun p => decide (n1 - (st.guard.ttl_seconds : Int) ≤ p.2)))
          (pyStrip (state.getD "")) n1) })
    state n1' hm (dictGet_dictSet_self _ _ _) httl
  simp only [notion_oauth_callback, hv2]

/-- **C8.** For every session id that is non-empty after trimming, a finalize
call when the session is absent and a finalize call when the session is
present but expired produce the identical external outcome: HTTP 400 with
body `{"error": "session_expired", "message": "Session not found or
expired"}` — the two causes are indistinguishable to the caller. -/
theorem claim_C8 {α : Type} (c₁ c₂ : SessionCache α) (session_id : String)
    (now₁ now₂ e : Int) (p : α)
    (h_ne : pyStrip session_id ≠ "")
    (h_absent : dictGet c₁.store (pyStrip session_id) = none)
    (h_nodup : (c₂.store.map Prod.fst).Nodup)
    (h_present : dictGet c₂.store (pyStrip session_id) = some (e, p))
    (h_expired : e ≤ now₂) :
    (finalize_notion_oauth c₁ session_id now₁).1
      = FinalizeResponse.badRequest "session_expired" "Session not found or expired"
    ∧ (finalize_notion_oauth c₂ session_id now₂).1
      = FinalizeResponse.badRequest "session_expired" "Session not found or expired"
    ∧ (finalize_notion_oauth c₁ session_id now₁).1
      = (finalize_notion_oauth c₂ session_id now₂).1 := by
  have h1 := finalize_eval_none c₁ session_id now₁ h_ne
    (pop_result_absent c₁ (pyStrip session_id) now₁ h_absent)
  have h2 := finalize_eval_none c₂ session_id now₂ h_ne
    (pop_result_expired c₂ (pyStrip session_id) now₂ h_nodup h_present h_expired)
  exact ⟨h1, h2, by rw [h1, h2]⟩

/-- **C10 (counterexample).** As stated, the claim fails: a successful
`validate_and_store` call stores the *request's* timestamp unconditionally,
so a call with a stale timestamp (the handler-level freshness gate is not
part of `validate_and_store`) leaves an entry below the cutoff. -/
theorem claim_C10_counterexample :
    ((NonceStore.mk [] 10000).validate_and_store "n" (-100) 10 0).2 = none
    ∧ ((NonceStore.mk [] 10000).validate_and_store "n" (-100) 10 0).1.seen
        = [("n", -100)]
    ∧ ¬ ((0 : Int) - 10 ≤ -100) := by
  decide

/-- **C10 (amended).** After every `validate_and_store(nonce, timestamp,
ttl_seconds)` call — whether it succeeds or raises `Replayed` — every entry
*other than the one the call itself may have written* has a stored timestamp
`≥ now − ttl_seconds`; and at the moment of the replay check (right after the
sweep) the test "stored timestamp ≥ cutoff" is equivalent to mere presence of
the nonce, i.e. the call raises `Replayed` iff the nonce is present after the
sweep. -/
theorem claim_C10 (s : NonceStore) (nonce : String) (ts ttl now : Int) :
    (∀ p ∈ (s.validate_and_store nonce ts ttl now).1.seen,
      p.1 ≠ nonce → now - ttl ≤ p.2)
    ∧ ((s.validate_and_store nonce ts ttl now).2 = some VerifyError.replayed
        ↔ (dictGet (nonceEvict s.seen s.max_entries (now - ttl)) nonce).isSome
            = true) := by
  rcases hget : dictGet (nonceEvict s.seen s.max_entries (now - ttl)) nonce
    with _ | t
  · rw [validate_and_store_fresh s nonce ts ttl now hget]
    constructor
    · intro p hp hne
      exact nonceEvict_mem_ge (mem_dictSet_of_ne hp hne)
    · simp
  · have ht : now - ttl ≤ t := nonceEvict_mem_ge (dictGet_mem hget)
    rw [validate_and_store_replay s nonce ts ttl now hget ht]
    constructor
    · intro p hp _
      exact nonceEvict_mem_ge hp
    · simp

/-! ## Witnesses: the claim theorems applied at concrete inputs -/

/-- Witness for C1: the scenario of spec §8 — a concrete valid signed request
succeeds, and replaying the identical tuple 100 seconds later is rejected as
a replay. -/
theorem claim_C1_witness :
    (verify_signed_request
      (Settings.mk "ios-test-client" "ios-test-secret" 300).client_id "n1"
      1700000000
      (hmacSha256Hex (Settings.mk "ios-test-client" "ios-test-secret" 300).client_secret
        ((Settings.mk "ios-test-client" "ios-test-secret" 300).client_id
          ++ "." ++ "n1" ++ "." ++ toString (1700000000 : Int)))
      (Settings.mk "ios-test-client" "ios-test-secret" 300)
      (verify_signed_request
        (Settings.mk "ios-test-client" "ios-test-secret" 300).client_id "n1"
        1700000000
        (hmacSha256Hex (Settings.mk "ios-test-client" "ios-test-secret" 300).client_secret
          ((Settings.mk "ios-test-client" "ios-test-secret" 300).client_id
            ++ "." ++ "n1" ++ "." ++ toString (1700000000 : Int)))
        (Settings.mk "ios-test-client" "ios-test-secret" 300)
        (NonceStore.mk [] 10000) 1700000000 1700000000).1
      1700000100 1700000100).2 = some VerifyError.replayed :=
  (claim_C1 (Settings.mk "ios-test-client" "ios-test-secret" 300)
    (NonceStore.mk [] 10000) "n1" 1700000000 _ 1700000000 1700000100
    1700000000 1700000100 rfl (by decide) (by decide) (by decide) (by decide)
    rfl (by decide) (by decide)).2.2.1

/-- Witness for C2: a concrete ASCII signature that is not the expected
digest is rejected with `BadSignature`, leaving the store untouched. -/
theorem claim_C2_witness :
    verify_signed_request
      (Settings.mk "ios-test-client" "ios-test-secret" 300).client_id "n1"
      1700000000 "deadbeef" (Settings.mk "ios-test-client" "ios-test-secret" 300)
      (NonceStore.mk [] 10000) 1700000000 1700000000
      = (NonceStore.mk [] 10000, some VerifyError.badSignature) :=
  ((claim_C2 (Settings.mk "ios-test-client" "ios-test-secret" 300)
    (NonceStore.mk [] 10000) "n1" 1700000000 "deadbeef" 1700000000 1700000000
    (by decide) (by decide) (by decide) (by decide)).1 (by decide)).1

/-- Witness for C3 (amended): a concrete in-range timestamp 1000 seconds in
the past is rejected as `Expired` regardless of the signature. -/
theorem claim_C3_witness :
    verify_signed_request (Settings.mk "c" "s" 300).client_id "n" 1699999000
      "anything" (Settings.mk "c" "s" 300) (NonceStore.mk [] 10000)
      1700000000 1700000000
      = (NonceStore.mk [] 10000, some VerifyError.expired) :=
  (claim_C3 (Settings.mk "c" "s" 300) (NonceStore.mk [] 10000) "n" 1699999000
    "anything" 1700000000 1700000000 (by decide) (by decide) (by decide)).1

/-- Witness for C5 (amended): on a within-capacity cache holding one
unexpired entry, `pop` returns the stored payload and removes the entry. -/
theorem claim_C5_witness :
    ((SessionCache.mk [("a", ((100 : Int), (7 : Nat)))] 10).pop "a" 0).2
      = (if (0 : Int) < 100 then some 7 else none)
    ∧ dictGet ((SessionCache.mk [("a", ((100 : Int), (7 : Nat)))] 10).pop
        "a" 0).1.store "a" = none :=
  ⟨(claim_C5 (SessionCache.mk [("a", ((100 : Int), (7 : Nat)))] 10) "a" 0
      (by decide) (by decide)).1 100 7 rfl,
   (claim_C5 (SessionCache.mk [("a", ((100 : Int), (7 : Nat)))] 10) "a" 0
      (by decide) (by decide)).2.2.1⟩

/-- Witness for C7 (amended): with a fresh valid state and a network failure,
the callback reports the network error and an identical retry one second
later is rejected as an invalid (replayed) state. -/
theorem claim_C7_witness :
    (notion_oauth_callback
        (OAuthServerState.mk (StateReplayGuard.mk 600 []) (SessionCache.mk [] 10000))
        (some "authcode") (some "stateAbc123XYZ") "cid" "csec"
        (ExchangeResult.requestError "timeout") "s1" 0 0 0).1
      = CallbackResult.redirectError "Failed to reach Notion API"
    ∧ (notion_oauth_callback
        (notion_oauth_callback
          (OAuthServerState.mk (StateReplayGuard.mk 600 []) (SessionCache.mk [] 10000))
          (some "authcode") (some "stateAbc123XYZ") "cid" "csec"
          (ExchangeResult.requestError "timeout") "s1" 0 0 0).2
        (some "authcode") (some "stateAbc123XYZ") "cid" "csec"
        (ExchangeResult.requestError "again") "s2" 1 1 1).1
      = CallbackResult.redirectError "Invalid OAuth state" :=
  ⟨(claim_C7 (OAuthServerState.mk (StateReplayGuard.mk 600 []) (SessionCache.mk [] 10000))
      (some "authcode") (some "stateAbc123XYZ") "cid" "csec" "timeout" "s1" "s2"
      0 0 0 1 1 1 (ExchangeResult.requestError "again")
      (by decide) rfl (by decide) (by decide) (by decide) (by decide)).2.1,
   (claim_C7 (OAuthServerState.mk (StateReplayGuard.mk 600 []) (SessionCache.mk [] 10000))
      (some "authcode") (some "stateAbc123XYZ") "cid" "csec" "timeout" "s1" "s2"
      0 0 0 1 1 1 (ExchangeResult.requestError "again")
      (by decide) rfl (by decide) (by decide) (by decide) (by decide)).2.2.2⟩

/-- Witness for C8: a concrete never-stored session id and a concrete
expired session produce the identical generic rejection. -/
theorem claim_C8_witness :
    (finalize_notion_oauth (SessionCache.mk ([] : List (String × (Int × Nat))) 10)
        "s1" 0).1
      = FinalizeResponse.badRequest "session_expired" "Session not found or expired"
    ∧ (finalize_notion_oauth (SessionCache.mk [("s1", ((5 : Int), (42 : Nat)))] 10)
        "s1" 10).1
      = FinalizeResponse.badRequest "session_expired" "Session not found or expired"
    ∧ (finalize_notion_oauth (SessionCache.mk ([] : List (String × (Int × Nat))) 10)
        "s1" 0).1
      = (finalize_notion_oauth (SessionCache.mk [("s1", ((5 : Int), (42 : Nat)))] 10)
        "s1" 10).1 :=
  claim_C8 (SessionCache.mk ([] : List (String × (Int × Nat))) 10)
    (SessionCache.mk [("s1", ((5 : Int), (42 : Nat)))] 10) "s1" 0 10 5 42
    (by decide) rfl (by decide) rfl (by decide)

/-- Witness for C9: a three-entry store with cap 2 keeps exactly the two
newest-timestamp entries after the overflow eviction. -/
theorem claim_C9_witness :
    (nonceEvict [("a", (1 : Int)), ("b", 5), ("c", 3)] 2 0).length = 2
    ∧ List.Sublist (nonceEvict [("a", (1 : Int)), ("b", 5), ("c", 3)] 2 0)
        ([("a", (1 : Int)), ("b", 5), ("c", 3)].filter
          (fun p => decide ((0 : Int) ≤ p.2)))
    ∧ (∀ p ∈ [("a", (1 : Int)), ("b", 5), ("c", 3)].filter
          (fun p => decide ((0 : Int) ≤ p.2)),
        p ∉ nonceEvict [("a", (1 : Int)), ("b", 5), ("c", 3)] 2 0 →
        ∀ q ∈ nonceEvict [("a", (1 : Int)), ("b", 5), ("c", 3)] 2 0, p.2 ≤ q.2) :=
  claim_C9 [("a", (1 : Int)), ("b", 5), ("c", 3)] 2 0 (by decide) (by decide)
